import Mathlib

/-!
Verification of the wsgateway connection-admission and connection-establishment
core against its natural-language specification.

The development shallowly embeds the four components of the core:
the session store (`pkg/session/provider.go`), the token-bucket admission
controller (`internal/limiter/connection_limiter.go`), the upgrade pipeline
(`internal/upgrader/upgrader.go`) and the frame codec (the `wswrapper`
Reader/Writer).  Go `int64` arithmetic is modelled on `Int` with explicit
two's-complement wraparound where Go addition can overflow; the Redis backend
is modelled as an association list of hashes, the Lua create-if-absent script
as an atomic pure step on that store.
-/

namespace WsGateway

/-! ## Session store (`pkg/session/provider.go`) -/

/-- The user identity carried by a session: `session.UserInfo` with fields
`BizID`, `UserID`, `AutoClose`. -/
structure UserInfo where
  bizID : Int
  userID : Int
  autoClose : Bool
deriving Repr, DecidableEq

/-- The redis hash stored under a session key: a list of field/value pairs,
mirroring the argument list handed to `HSET`. -/
abbrev RedisHash := List (String × String)

/-- The redis keyspace visible to the session component: an association list
from keys to hashes.  Only the bindings reachable through `storeLookup`
matter. -/
abbrev RedisStore := List (String × RedisHash)

/-- `EXISTS`/`HGETALL`-style lookup of a key in the modelled store. -/
def storeLookup (st : RedisStore) (k : String) : Option RedisHash :=
  match st with
  | [] => none
  | (k2, v) :: rest => if k2 = k then some v else storeLookup rest k

/-- `HSET` of a fresh key in the modelled store. -/
def storeInsert (st : RedisStore) (k : String) (v : RedisHash) : RedisStore :=
  (k, v) :: st

/-- The key-derivation of `keyFormat`:
`"gateway:session:bizId:%d:userId:%d"` rendered with `fmt.Sprintf`. -/
def keyFormat (bizID userID : Int) : String :=
  "gateway:session:bizId:" ++ toString bizID ++ ":userId:" ++ toString userID

/-- `redisSession`: the handle built by `newRedisSession`, holding the caller
supplied `userInfo` and the derived key (the `rdb` client field carries no
state of its own and is left out of the embedding). -/
structure RedisSession where
  userInfo : UserInfo
  key : String
deriving Repr, DecidableEq

/-- `newRedisSession`: stores the user info and derives the key from
`(BizID, UserID)`. -/
def newRedisSession (userInfo : UserInfo) : RedisSession :=
  { userInfo := userInfo, key := keyFormat userInfo.bizID userInfo.userID }

/-- The session key a given identity maps to. -/
def sessionKey (info : UserInfo) : String :=
  keyFormat info.bizID info.userID

/-- The error values of `pkg/session`: `ErrSessionExisted`,
`ErrCreateSessionFailed` (wrapping an underlying backend error string, or the
defensive unknown-result-type case), and `ErrDestroySessionFailed`. -/
inductive SessionErr where
  | sessionExisted
  | createSessionFailed (underlying : String)
  | createSessionFailedBadType
  | destroySessionFailed (underlying : String)
deriving Repr, DecidableEq

/-- The `luaSetSessionIfNotExist` script: atomically, if the key does not
exist, `HSET` all field/value pairs and return 1; otherwise return 0. -/
def luaSetSessionIfNotExist (st : RedisStore) (k : String) (fields : RedisHash) :
    Int × RedisStore :=
  match storeLookup st k with
  | some _ => (0, st)
  | none => (1, storeInsert st k fields)

/-- What the backend reports for one script execution: a plain integer reply,
a reply of an unexpected type, or a transport/protocol failure.  The store
component of each constructor is the keyspace after the call. -/
inductive ScriptOutcome where
  | ok (res : Int) (st : RedisStore)
  | okBadType (st : RedisStore)
  | fail (e : String) (st : RedisStore)
deriving Repr, DecidableEq

/-- A backend: how running the Lua script against a store turns out. -/
abbrev Backend := RedisStore → String → RedisHash → ScriptOutcome

/-- The healthy backend: the script runs atomically and returns its integer
result. -/
def runScriptHealthy : Backend := fun st k fields =>
  let r := luaSetSessionIfNotExist st k fields
  .ok r.1 r.2

/-- `redisSession.initialize`: run the script with the single
`("loginTime", now)` field; a backend error is wrapped in
`ErrCreateSessionFailed`, a non-integer reply hits the defensive branch, a
`0` reply becomes `ErrSessionExisted`, a `1` reply is success. -/
def initSession (outcome : ScriptOutcome) : Option SessionErr × RedisStore :=
  match outcome with
  | .fail e st => (some (.createSessionFailed e), st)
  | .okBadType st => (some .createSessionFailedBadType, st)
  | .ok res st => if res = 1 then (none, st) else (some .sessionExisted, st)

/-- `RedisSessionBuilder.Build` over an arbitrary backend: construct the
session handle, initialize it, and translate the outcome — `nil` error means
newly created, `ErrSessionExisted` means an existing session is returned with
`isNew = false`, anything else is a failure that returns no session. -/
def buildWith (backend : Backend) (st : RedisStore) (info : UserInfo)
    (loginTime : String) :
    (Option RedisSession × Bool × Option SessionErr) × RedisStore :=
  let s := newRedisSession info
  let r := initSession (backend st s.key [("loginTime", loginTime)])
  match r.1 with
  | none => ((some s, true, none), r.2)
  | some .sessionExisted => ((some s, false, none), r.2)
  | some e => ((none, false, some e), r.2)

/-- `RedisSessionBuilder.Build` against the healthy backend. -/
def build (st : RedisStore) (info : UserInfo) (loginTime : String) :
    (Option RedisSession × Bool × Option SessionErr) × RedisStore :=
  buildWith runScriptHealthy st info loginTime

/-- A whole family of `Build` calls on one store, executed in linearization
order: each call's sole store access is the one atomic script execution, so
any concurrent schedule of `Build` calls is observationally one such
sequence. -/
def runBuilds (st : RedisStore) (calls : List (UserInfo × String)) :
    List (Option RedisSession × Bool × Option SessionErr) × RedisStore :=
  match calls with
  | [] => ([], st)
  | (info, lt) :: rest =>
    let r := build st info lt
    let rs := runBuilds r.2 rest
    (r.1 :: rs.1, rs.2)

/-! Basic shape lemmas about `build`. -/

theorem build_absent (st : RedisStore) (info : UserInfo) (lt : String)
    (h : storeLookup st (sessionKey info) = none) :
    build st info lt =
      ((some (newRedisSession info), true, none),
        storeInsert st (sessionKey info) [("loginTime", lt)]) := by
  simp [build, buildWith, runScriptHealthy, luaSetSessionIfNotExist, initSession,
    newRedisSession, sessionKey] at h ⊢
  simp [h]

theorem build_present (st : RedisStore) (info : UserInfo) (lt : String)
    (r : RedisHash) (h : storeLookup st (sessionKey info) = some r) :
    build st info lt = ((some (newRedisSession info), false, none), st) := by
  simp [build, buildWith, runScriptHealthy, luaSetSessionIfNotExist, initSession,
    newRedisSession, sessionKey] at h ⊢
  simp [h]

theorem build_healthy_never_fails (st : RedisStore) (info : UserInfo) (lt : String) :
    (build st info lt).1.1 = some (newRedisSession info) ∧
      (build st info lt).1.2.2 = none := by
  rcases h : storeLookup st (sessionKey info) with _ | r
  · rw [build_absent st info lt h]
    exact ⟨rfl, rfl⟩
  · rw [build_present st info lt r h]
    exact ⟨rfl, rfl⟩

theorem runBuilds_present (st : RedisStore) (info : UserInfo) (lts : List String)
    (r : RedisHash) (h : storeLookup st (sessionKey info) = some r) :
    runBuilds st (lts.map fun lt => (info, lt)) =
      (lts.map fun _ => (some (newRedisSession info), false, none), st) := by
  induction lts with
  | nil => rfl
  | cons lt rest ih =>
    simp only [List.map_cons, runBuilds, build_present st info lt r h, ih]

/-- Claim C1: linearized over the atomic create-if-absent script (the only
store operation a `Build` performs), any number of `Build` calls racing on one
identity whose key starts out absent produce exactly one `isNew = true`
result; every call gets a session handle at the same backend key and a `nil`
error — no call fails merely because of the race. -/
theorem build_race_exactly_one_isNew (st : RedisStore) (info : UserInfo)
    (lt : String) (rest : List String)
    (habs : storeLookup st (sessionKey info) = none) :
    (((runBuilds st ((lt :: rest).map fun x => (info, x))).1.filter
        fun r => r.2.1).length = 1) ∧
    (∀ r ∈ (runBuilds st ((lt :: rest).map fun x => (info, x))).1,
      r.2.2 = none ∧ r.1 = some (newRedisSession info) ∧
        ∀ s, r.1 = some s → s.key = sessionKey info) := by
  have hstep : runBuilds st ((lt :: rest).map fun x => (info, x)) =
      ((some (newRedisSession info), true, none) ::
          (rest.map fun _ => (some (newRedisSession info), false, none)),
        storeInsert st (sessionKey info) [("loginTime", lt)]) := by
    have hpres : storeLookup
        (storeInsert st (sessionKey info) [("loginTime", lt)]) (sessionKey info) =
        some [("loginTime", lt)] := by
      simp [storeInsert, storeLookup]
    simp only [List.map_cons, runBuilds, build_absent st info lt habs,
      runBuilds_present _ info rest _ hpres]
  rw [hstep]
  constructor
  · simp [List.filter_map, List.filter]
  · intro r hr
    rcases List.mem_cons.mp hr with h1 | h1
    · subst h1
      refine ⟨rfl, rfl, ?_⟩
      intro s hs
      cases hs
      rfl
    · rcases List.mem_map.mp h1 with ⟨x, _, hx⟩
      subst hx
      refine ⟨rfl, rfl, ?_⟩
      intro s hs
      cases hs
      rfl

/-- Witness for C1 at a concrete input: three racing builds on identity
`(bizID 1, userID 7)` over the empty store. -/
theorem build_race_exactly_one_isNew_witness :
    (storeLookup [] (sessionKey ⟨1, 7, false⟩) = none) ∧
    (((runBuilds [] ((["t1", "t2", "t3"]).map
        fun x => ((⟨1, 7, false⟩ : UserInfo), x))).1.filter
        fun r => r.2.1).length = 1) := by
  refine ⟨rfl, ?_⟩
  exact (build_race_exactly_one_isNew [] ⟨1, 7, false⟩ "t1" ["t2", "t3"] rfl).1

/-- Claim C5: a sequential `Build` is get-or-create.  An absent key is
created, populated with a `loginTime` field, and reported `isNew = true` with
no error; an existing key is returned as `isNew = false` with no error, the
handle points at the same key and the stored record is not rewritten
(`ErrSessionExisted` never escapes to the caller); any other backend failure
yields no session and the underlying error wrapped in
`ErrCreateSessionFailed`. -/
theorem build_get_or_create (st : RedisStore) (info : UserInfo) (lt : String) :
    (storeLookup st (sessionKey info) = none →
      build st info lt =
        ((some (newRedisSession info), true, none),
          storeInsert st (sessionKey info) [("loginTime", lt)])) ∧
    (∀ r, storeLookup st (sessionKey info) = some r →
      build st info lt = ((some (newRedisSession info), false, none), st)) ∧
    (∀ e, buildWith (fun st2 _ _ => .fail e st2) st info lt =
      ((none, false, some (.createSessionFailed e)), st)) := by
  refine ⟨build_absent st info lt, fun r h => build_present st info lt r h, ?_⟩
  intro e
  rfl

/-- Witness for C5 at a concrete input: the empty store and a one-entry
store for identity `(bizID 2, userID 3)`. -/
theorem build_get_or_create_witness :
    (storeLookup [] (sessionKey ⟨2, 3, true⟩) = none ∧
      build [] ⟨2, 3, true⟩ "now" =
        ((some (newRedisSession ⟨2, 3, true⟩), true, none),
          storeInsert [] (sessionKey ⟨2, 3, true⟩) [("loginTime", "now")])) ∧
    (build (storeInsert [] (sessionKey ⟨2, 3, true⟩) [("loginTime", "t0")])
        ⟨2, 3, true⟩ "now" =
      ((some (newRedisSession ⟨2, 3, true⟩), false, none),
        storeInsert [] (sessionKey ⟨2, 3, true⟩) [("loginTime", "t0")])) ∧
    (buildWith (fun st2 _ _ => .fail "connection refused" st2) [] ⟨2, 3, true⟩ "now" =
      ((none, false, some (.createSessionFailed "connection refused")), [])) := by
  refine ⟨⟨rfl, (build_get_or_create [] ⟨2, 3, true⟩ "now").1 rfl⟩, ?_, ?_⟩
  · exact (build_get_or_create _ ⟨2, 3, true⟩ "now").2.1 [("loginTime", "t0")]
      (by simp [storeInsert, storeLookup])
  · exact (build_get_or_create [] ⟨2, 3, true⟩ "now").2.2 "connection refused"

/-- Claim C10: whenever `Build` returns without error, the returned handle is
exactly `newRedisSession info`, so its `UserInfo()` is the identity argument
of that very call (including its `autoClose` flag) even on the
`isNew = false` path, and on that path the stored record is untouched. -/
theorem build_returns_caller_userInfo (st : RedisStore) (info : UserInfo)
    (lt : String) :
    ∀ os isNew st2, build st info lt = ((os, isNew, none), st2) →
      os = some (newRedisSession info) ∧
        (newRedisSession info).userInfo = info ∧
        (isNew = false → st2 = st) := by
  intro os isNew st2 h
  rcases hl : storeLookup st (sessionKey info) with _ | r
  · rw [build_absent st info lt hl] at h
    cases h
    exact ⟨rfl, rfl, by intro hfalse; cases hfalse⟩
  · rw [build_present st info lt r hl] at h
    cases h
    exact ⟨rfl, rfl, fun _ => rfl⟩

/-- Witness for C10 at a concrete input: the `isNew = false` path for
identity `(bizID 4, userID 9)` with `autoClose = true` over a store that
already holds the key. -/
theorem build_returns_caller_userInfo_witness :
    (some (newRedisSession ⟨4, 9, true⟩) = some (newRedisSession ⟨4, 9, true⟩) ∧
      (newRedisSession ⟨4, 9, true⟩).userInfo = (⟨4, 9, true⟩ : UserInfo) ∧
      (false = false →
        storeInsert [] (sessionKey ⟨4, 9, true⟩) [("loginTime", "t0")] =
          storeInsert [] (sessionKey ⟨4, 9, true⟩) [("loginTime", "t0")])) := by
  exact build_returns_caller_userInfo
    (storeInsert [] (sessionKey ⟨4, 9, true⟩) [("loginTime", "t0")]) ⟨4, 9, true⟩ "t1"
    (some (newRedisSession ⟨4, 9, true⟩)) false
    (storeInsert [] (sessionKey ⟨4, 9, true⟩) [("loginTime", "t0")])
    (build_present _ ⟨4, 9, true⟩ "t1" [("loginTime", "t0")]
      (by simp [storeInsert, storeLookup]))

/-! ## Admission controller (`internal/limiter/connection_limiter.go`) -/

/-- `TokenLimiterConfig`; the interval is kept as an integer nanosecond
count, as in Go's `time.Duration`. -/
structure TokenLimiterConfig where
  initialCapacity : Int
  maxCapacity : Int
  increaseStep : Int
  increaseInterval : Int
deriving Repr, DecidableEq

/-- The validation performed by `NewTokenLimiter`: `MaxCapacity > 0`,
`InitialCapacity ≥ 0`, `InitialCapacity ≤ MaxCapacity`, `IncreaseStep > 0`,
`IncreaseInterval > 0`.  All fields are Go `int64` values. -/
def ValidConfig (cfg : TokenLimiterConfig) : Prop :=
  0 < cfg.maxCapacity ∧ 0 ≤ cfg.initialCapacity ∧
    cfg.initialCapacity ≤ cfg.maxCapacity ∧ 0 < cfg.increaseStep ∧
    0 < cfg.increaseInterval ∧
    cfg.maxCapacity < 2 ^ 63 ∧ cfg.increaseStep < 2 ^ 63

instance (cfg : TokenLimiterConfig) : Decidable (ValidConfig cfg) := by
  unfold ValidConfig
  infer_instance

/-- Go `int64` two's-complement wraparound of an unbounded integer. -/
def wrap64 (x : Int) : Int :=
  (x + 2 ^ 63) % 2 ^ 64 - 2 ^ 63

theorem wrap64_eq_of_bounds (x : Int) (h1 : -(2 ^ 63) ≤ x) (h2 : x < 2 ^ 63) :
    wrap64 x = x := by
  unfold wrap64
  rw [Int.emod_eq_of_lt (by omega) (by omega)]
  omega

/-- One wake-up of the `StartRampUp` loop at capacity `current`:
`none` means the goroutine returns (ceiling reached); otherwise the stored
new capacity together with `addedTokens`, the number of fresh tokens the
loop body sends into the bucket.  The sum `current + IncreaseStep` is Go
`int64` addition, hence wraps. -/
def rampTick (cfg : TokenLimiterConfig) (current : Int) : Option (Int × Int) :=
  if cfg.maxCapacity ≤ current then none
  else
    let newCap0 := wrap64 (current + cfg.increaseStep)
    let newCap := if cfg.maxCapacity < newCap0 then cfg.maxCapacity else newCap0
    some (newCap, newCap - current)

/-- `CurrentCapacity()` after `k` ticks of the ramp-up goroutine (the
capacity is untouched once the goroutine has returned). -/
def capAfter (cfg : TokenLimiterConfig) : Nat → Int
  | 0 => cfg.initialCapacity
  | k + 1 =>
    match rampTick cfg (capAfter cfg k) with
    | none => capAfter cfg k
    | some r => r.1

/-- `ceil((maxCapacity - initialCapacity) / increaseStep)`, the spec's tick
bound, computed in `Nat`. -/
def numRampTicks (cfg : TokenLimiterConfig) : Nat :=
  ((cfg.maxCapacity - cfg.initialCapacity).toNat + (cfg.increaseStep.toNat - 1)) /
    cfg.increaseStep.toNat

/-- No tick of a valid configuration can overflow `int64`: the largest sum a
tick can form is `(maxCapacity - 1) + increaseStep`. -/
def NoRampOverflow (cfg : TokenLimiterConfig) : Prop :=
  cfg.maxCapacity - 1 + cfg.increaseStep < 2 ^ 63

instance (cfg : TokenLimiterConfig) : Decidable (NoRampOverflow cfg) := by
  unfold NoRampOverflow
  infer_instance

theorem rampTick_below (cfg : TokenLimiterConfig) (hv : ValidConfig cfg)
    (hno : NoRampOverflow cfg) (current : Int) (h0 : 0 ≤ current)
    (hlt : current < cfg.maxCapacity) :
    rampTick cfg current =
      some (min (current + cfg.increaseStep) cfg.maxCapacity,
        min (current + cfg.increaseStep) cfg.maxCapacity - current) := by
  obtain ⟨_, _, _, hstep, _⟩ := hv
  have hwrap : wrap64 (current + cfg.increaseStep) = current + cfg.increaseStep :=
    wrap64_eq_of_bounds _ (by omega) (by unfold NoRampOverflow at hno; omega)
  unfold rampTick
  rw [if_neg (by omega)]
  simp only [hwrap]
  rcases le_or_lt (current + cfg.increaseStep) cfg.maxCapacity with hle | hgt
  · rw [if_neg (by omega), min_eq_left hle]
  · rw [if_pos hgt, min_eq_right (le_of_lt hgt)]

theorem capAfter_closed_form (cfg : TokenLimiterConfig) (hv : ValidConfig cfg)
    (hno : NoRampOverflow cfg) (k : Nat) :
    capAfter cfg k = min (cfg.initialCapacity + k * cfg.increaseStep) cfg.maxCapacity := by
  have hinit := hv.2.1
  have hinitle := hv.2.2.1
  have hstep := hv.2.2.2.1
  induction k with
  | zero =>
    simp only [capAfter, Nat.cast_zero, zero_mul, add_zero]
    rw [min_eq_left hinitle]
  | succ k ih =>
    rcases le_or_lt cfg.maxCapacity (cfg.initialCapacity + k * cfg.increaseStep) with hge | hlt
    · have hcapk : capAfter cfg k = cfg.maxCapacity := by
        rw [ih, min_eq_right hge]
      have hfix : capAfter cfg (k + 1) = cfg.maxCapacity := by
        unfold capAfter
        rw [hcapk]
        unfold rampTick
        rw [if_pos le_rfl]
      rw [hfix, min_eq_right]
      have hk1 : cfg.initialCapacity + k * cfg.increaseStep ≤
          cfg.initialCapacity + (k + 1 : Nat) * cfg.increaseStep := by
        push_cast
        nlinarith
      omega
    · have hcapk : capAfter cfg k = cfg.initialCapacity + k * cfg.increaseStep := by
        rw [ih, min_eq_left (le_of_lt hlt)]
      have h0 : (0 : Int) ≤ cfg.initialCapacity + k * cfg.increaseStep := by
        have hks : (0 : Int) ≤ (k : Int) * cfg.increaseStep := by positivity
        omega
      have htick := rampTick_below cfg hv hno
        (capAfter cfg k) (hcapk ▸ h0) (hcapk ▸ hlt)
      show (match rampTick cfg (capAfter cfg k) with
        | none => capAfter cfg k
        | some r => r.1) = _
      rw [htick]
      simp only
      rw [hcapk]
      congr 1
      push_cast
      ring

theorem int_le_ceil_mul (a b : Nat) (hb : 0 < b) :
    a ≤ ((a + b - 1) / b) * b := by
  rw [Nat.mul_comm]
  have hdm := Nat.div_add_mod (a + b - 1) b
  have hmlt : (a + b - 1) % b < b := Nat.mod_lt _ hb
  omega

theorem numRampTicks_reaches (cfg : TokenLimiterConfig) (hv : ValidConfig cfg) :
    cfg.maxCapacity ≤
      cfg.initialCapacity + (numRampTicks cfg : Int) * cfg.increaseStep := by
  have hmax := hv.1
  have hinitle := hv.2.2.1
  have hstep := hv.2.2.2.1
  have hb : 0 < cfg.increaseStep.toNat := by omega
  have hkey := int_le_ceil_mul (cfg.maxCapacity - cfg.initialCapacity).toNat
    cfg.increaseStep.toNat hb
  have heq : (cfg.maxCapacity - cfg.initialCapacity).toNat + cfg.increaseStep.toNat - 1 =
      (cfg.maxCapacity - cfg.initialCapacity).toNat + (cfg.increaseStep.toNat - 1) := by
    omega
  rw [heq] at hkey
  have hcast : ((cfg.maxCapacity - cfg.initialCapacity).toNat : Int) ≤
      (numRampTicks cfg : Int) * (cfg.increaseStep.toNat : Int) := by
    unfold numRampTicks
    exact_mod_cast hkey
  have h1 : ((cfg.maxCapacity - cfg.initialCapacity).toNat : Int) =
      cfg.maxCapacity - cfg.initialCapacity := by omega
  have h2 : ((cfg.increaseStep.toNat : Int)) = cfg.increaseStep := by omega
  rw [h1, h2] at hcast
  omega

/-- Claim C4 (amended): for every valid configuration whose tick addition
cannot overflow `int64`, a tick below the ceiling sets the capacity to
`min(current + increaseStep, maxCapacity)` and adds exactly that difference
of fresh tokens; the capacity is non-decreasing, never exceeds
`maxCapacity`, equals `maxCapacity` after `ceil((maxCapacity -
initialCapacity) / increaseStep)` ticks, stays there, and the tick at the
ceiling makes the ramp-up goroutine exit. -/
theorem rampUp_capacity_correct (cfg : TokenLimiterConfig) (hv : ValidConfig cfg)
    (hno : NoRampOverflow cfg) :
    (∀ current, 0 ≤ current → current < cfg.maxCapacity →
      rampTick cfg current =
        some (min (current + cfg.increaseStep) cfg.maxCapacity,
          min (current + cfg.increaseStep) cfg.maxCapacity - current)) ∧
    (∀ k, capAfter cfg k ≤ capAfter cfg (k + 1)) ∧
    (∀ k, capAfter cfg k ≤ cfg.maxCapacity) ∧
    capAfter cfg (numRampTicks cfg) = cfg.maxCapacity ∧
    (∀ k, numRampTicks cfg ≤ k → capAfter cfg k = cfg.maxCapacity) ∧
    rampTick cfg cfg.maxCapacity = none := by
  have hstep := hv.2.2.2.1
  have hclosed := capAfter_closed_form cfg hv hno
  have hreach : ∀ k, numRampTicks cfg ≤ k → capAfter cfg k = cfg.maxCapacity := by
    intro k hk
    rw [hclosed k, min_eq_right]
    have hle := numRampTicks_reaches cfg hv
    have hmul : (numRampTicks cfg : Int) * cfg.increaseStep ≤
        (k : Int) * cfg.increaseStep := by
      have : (numRampTicks cfg : Int) ≤ (k : Int) := by exact_mod_cast hk
      nlinarith
    omega
  refine ⟨rampTick_below cfg hv hno, ?_, ?_, hreach _ le_rfl, hreach, ?_⟩
  · intro k
    rw [hclosed k, hclosed (k + 1)]
    have hmono : cfg.initialCapacity + (k : Int) * cfg.increaseStep ≤
        cfg.initialCapacity + ((k : Nat) + 1 : Nat) * cfg.increaseStep := by
      push_cast
      nlinarith
    exact min_le_min hmono le_rfl
  · intro k
    rw [hclosed k]
    exact min_le_right _ _
  · unfold rampTick
    rw [if_pos le_rfl]

/-- The configuration of spec Scenario A:
`{initial = 2, max = 5, step = 1, interval = 10ms}`. -/
def cfgScenarioA : TokenLimiterConfig :=
  { initialCapacity := 2, maxCapacity := 5, increaseStep := 1,
    increaseInterval := 10000000 }

/-- Witness for C4 at Scenario A's configuration: the third tick reaches the
ceiling of 5 (the ceiling bound is `ceil((5 - 2) / 1) = 3`), later ticks do
not move it, and the ramp-up loop exits at the ceiling. -/
theorem rampUp_capacity_correct_witness :
    ValidConfig cfgScenarioA ∧ NoRampOverflow cfgScenarioA ∧
    numRampTicks cfgScenarioA = 3 ∧
    capAfter cfgScenarioA 3 = 5 ∧
    capAfter cfgScenarioA 4 = 5 ∧
    rampTick cfgScenarioA 5 = none := by
  have h := rampUp_capacity_correct cfgScenarioA (by decide) (by decide)
  have hn : numRampTicks cfgScenarioA = 3 := by decide
  refine ⟨by decide, by decide, hn, ?_, ?_, ?_⟩
  · have h3 := h.2.2.2.1
    rw [hn] at h3
    exact h3
  · have h4 := h.2.2.2.2.1 4 (by omega)
    exact h4
  · have h5 := h.2.2.2.2.2
    exact h5

/-- A valid configuration at the edge of `int64`: `initialCapacity = 1`,
`maxCapacity = 2 ^ 63 - 1`, `increaseStep = 2 ^ 63 - 1`. -/
def cfgOverflow : TokenLimiterConfig :=
  { initialCapacity := 1, maxCapacity := 2 ^ 63 - 1, increaseStep := 2 ^ 63 - 1,
    increaseInterval := 1 }

/-- Counterexample to claim C4 as stated: this configuration passes every
`NewTokenLimiter` check, yet on the first tick the Go `int64` sum
`1 + (2^63 - 1)` wraps to `-2^63`, which escapes the `> maxCapacity` clamp,
so the stored capacity is not `min(current + step, max)` and
`CurrentCapacity()` decreases. -/
theorem rampTick_overflow_decreases_capacity :
    ValidConfig cfgOverflow ∧
    capAfter cfgOverflow 1 < capAfter cfgOverflow 0 ∧
    capAfter cfgOverflow 1 ≠
      min (capAfter cfgOverflow 0 + cfgOverflow.increaseStep)
        cfgOverflow.maxCapacity := by
  refine ⟨by decide, by decide, by decide⟩

/-- The channel capacity of the token bucket: `make(chan struct{},
tlc.MaxCapacity)`.  A send on the channel can only complete while fewer than
this many tokens are buffered. -/
def chanCap (cfg : TokenLimiterConfig) : Nat :=
  cfg.maxCapacity.toNat

/-- The mutable state of one `TokenLimiter` together with its ramp-up
goroutine: the `currentCapacity` atomic, the number of tokens buffered in
the channel, and — inside one tick body — the number of sends the tick still
has to perform before it stores `toStore` into `currentCapacity`. -/
structure LimiterState where
  capacity : Int
  available : Nat
  pending : Nat
  toStore : Option Int
deriving Repr, DecidableEq

/-- The state `NewTokenLimiter` leaves behind: `initialCapacity` tokens
buffered and `currentCapacity = initialCapacity`. -/
def initState (cfg : TokenLimiterConfig) : LimiterState :=
  { capacity := cfg.initialCapacity, available := cfg.initialCapacity.toNat,
    pending := 0, toStore := none }

/-- `Acquire()`: non-blocking receive from the token channel. -/
def acquireOp (s : LimiterState) : Bool × LimiterState :=
  if s.available = 0 then (false, s)
  else (true, { s with available := s.available - 1 })

/-- `Release()`: non-blocking send on the token channel; fails exactly when
the channel already buffers `chanCap` tokens. -/
def releaseOp (cfg : TokenLimiterConfig) (s : LimiterState) : Bool × LimiterState :=
  if s.available < chanCap cfg then (true, { s with available := s.available + 1 })
  else (false, s)

/-- The start of one ramp-up tick body: read the capacity, exit at the
ceiling, otherwise record the clamped new capacity and the number of token
sends the loop will perform. -/
def tickStartOp (cfg : TokenLimiterConfig) (s : LimiterState) : LimiterState :=
  match rampTick cfg s.capacity with
  | none => s
  | some r => { s with pending := r.2.toNat, toStore := some r.1 }

/-- One completed send of the tick body's token loop. -/
def rampSendOp (s : LimiterState) : LimiterState :=
  { s with pending := s.pending - 1, available := s.available + 1 }

/-- The `currentCapacity.Store(newCapacity)` that ends the tick body. -/
def rampStoreOp (s : LimiterState) : LimiterState :=
  match s.toStore with
  | some c => { s with capacity := c, toStore := none }
  | none => s

/-- Interleaved execution of `Acquire`/`Release` callers with the ramp-up
goroutine.  A channel send — whether from `Release` or from the tick body's
token loop — can only complete while the buffer is below `chanCap`; a tick
body's sends precede its capacity store. -/
inductive LimiterStep (cfg : TokenLimiterConfig) : LimiterState → LimiterState → Prop
  | acquire (s : LimiterState) : LimiterStep cfg s (acquireOp s).2
  | release (s : LimiterState) : LimiterStep cfg s (releaseOp cfg s).2
  | tickStart (s : LimiterState) (hp : s.pending = 0) (ht : s.toStore = none) :
      LimiterStep cfg s (tickStartOp cfg s)
  | send (s : LimiterState) (hp : 0 < s.pending) (hc : s.available < chanCap cfg) :
      LimiterStep cfg s (rampSendOp s)
  | store (s : LimiterState) (hp : s.pending = 0) :
      LimiterStep cfg s (rampStoreOp s)

/-- States a `TokenLimiter` can reach from construction. -/
def LimiterReachable (cfg : TokenLimiterConfig) (s : LimiterState) : Prop :=
  Relation.ReflTransGen (LimiterStep cfg) (initState cfg) s

theorem limiterStep_preserves_available (cfg : TokenLimiterConfig)
    (s s2 : LimiterState) (h : LimiterStep cfg s s2)
    (hb : s.available ≤ chanCap cfg) : s2.available ≤ chanCap cfg := by
  cases h with
  | acquire =>
    rcases Nat.eq_zero_or_pos s.available with h0 | h0
    · have heq : acquireOp s = (false, s) := by
        unfold acquireOp
        rw [if_pos h0]
      rw [heq]
      exact hb
    · have heq : acquireOp s = (true, { s with available := s.available - 1 }) := by
        unfold acquireOp
        rw [if_neg (by omega)]
      rw [heq]
      show s.available - 1 ≤ chanCap cfg
      omega
  | release =>
    rcases lt_or_ge s.available (chanCap cfg) with hlt | hge
    · have heq : releaseOp cfg s = (true, { s with available := s.available + 1 }) := by
        unfold releaseOp
        rw [if_pos hlt]
      rw [heq]
      show s.available + 1 ≤ chanCap cfg
      omega
    · have heq : releaseOp cfg s = (false, s) := by
        unfold releaseOp
        rw [if_neg (by omega)]
      rw [heq]
      exact hb
  | tickStart hp ht =>
    unfold tickStartOp
    rcases hrt : rampTick cfg s.capacity with _ | r
    · exact hb
    · exact hb
  | send hp hc =>
    show s.available + 1 ≤ chanCap cfg
    omega
  | store hp =>
    unfold rampStoreOp
    rcases hts : s.toStore with _ | c
    · exact hb
    · exact hb

theorem releaseOp_false_iff (cfg : TokenLimiterConfig) (s : LimiterState)
    (hb : s.available ≤ chanCap cfg) :
    ((releaseOp cfg s).1 = false ↔ s.available = chanCap cfg) := by
  rcases lt_or_ge s.available (chanCap cfg) with hlt | hge
  · have h1 : (releaseOp cfg s).1 = true := by
      unfold releaseOp
      rw [if_pos hlt]
    rw [h1]
    simp only [Bool.true_eq_false, false_iff]
    omega
  · have heq : s.available = chanCap cfg := by omega
    have h1 : (releaseOp cfg s).1 = false := by
      unfold releaseOp
      rw [if_neg (by omega)]
    rw [h1]
    simp [heq]

/-- Claim C9: in every reachable state of a valid `TokenLimiter`, the number
of buffered tokens is bounded by `MaxCapacity` — no interleaving of
`Acquire`, `Release` and ramp-up steps escapes the channel bound, however
many excess `Release` calls occur — and `Release` fails precisely when the
buffer already holds `MaxCapacity` tokens. -/
theorem limiter_available_bounded (cfg : TokenLimiterConfig) (s : LimiterState)
    (hv : ValidConfig cfg) (hr : LimiterReachable cfg s) :
    s.available ≤ chanCap cfg ∧
      ((releaseOp cfg s).1 = false ↔ s.available = chanCap cfg) := by
  have hbound : s.available ≤ chanCap cfg := by
    induction hr with
    | refl =>
      show (initState cfg).available ≤ chanCap cfg
      have h1 := hv.2.1
      have h2 := hv.2.2.1
      unfold initState chanCap
      simp only
      omega
    | tail hsteps hstep ih =>
      exact limiterStep_preserves_available cfg _ _ hstep ih
  exact ⟨hbound, releaseOp_false_iff cfg s hbound⟩

/-- Witness for C9 at a concrete input: Scenario A's configuration, in the
state reached by one successful `Acquire` from construction. -/
theorem limiter_available_bounded_witness :
    (acquireOp (initState cfgScenarioA)).2.available ≤ chanCap cfgScenarioA ∧
      ((releaseOp cfgScenarioA (acquireOp (initState cfgScenarioA)).2).1 = false ↔
        (acquireOp (initState cfgScenarioA)).2.available = chanCap cfgScenarioA) := by
  exact limiter_available_bounded cfgScenarioA _ (by decide)
    (Relation.ReflTransGen.single (LimiterStep.acquire _))

/-- A small valid configuration still ramping up: `initial = 1`, `max = 2`. -/
def cfgRamping : TokenLimiterConfig :=
  { initialCapacity := 1, maxCapacity := 2, increaseStep := 1,
    increaseInterval := 1 }

/-- Counterexample to claim C2 as stated: right after construction of this
valid limiter no `Acquire` is outstanding, yet `Release()` succeeds — the
channel bound is `MaxCapacity`, not `CurrentCapacity()` — and afterwards the
buffer holds 2 tokens while `CurrentCapacity()` is still 1, so
`available ≤ currentCapacity` is not preserved. -/
theorem release_excess_succeeds_below_max :
    ValidConfig cfgRamping ∧
    (releaseOp cfgRamping (initState cfgRamping)).1 = true ∧
    ((releaseOp cfgRamping (initState cfgRamping)).2.available : Int) >
      (releaseOp cfgRamping (initState cfgRamping)).2.capacity := by
  refine ⟨by decide, by decide, by decide⟩

/-- Claim C2 (amended): an excess `Release` fails exactly when the pool
already buffers `MaxCapacity` tokens (in particular it always fails once the
ramp-up has completed and no `Acquire` is outstanding), and no operation —
`Acquire`, `Release`, or a ramp-up step — pushes the buffered-token count
beyond `MaxCapacity`: the preserved invariant is
`available ≤ maxCapacity`. -/
theorem release_fails_iff_pool_full (cfg : TokenLimiterConfig) (s : LimiterState)
    (hb : s.available ≤ chanCap cfg) :
    ((releaseOp cfg s).1 = false ↔ s.available = chanCap cfg) ∧
    (releaseOp cfg s).2.available ≤ chanCap cfg ∧
    (acquireOp s).2.available ≤ chanCap cfg ∧
    (∀ s2, LimiterStep cfg s s2 → s2.available ≤ chanCap cfg) := by
  refine ⟨releaseOp_false_iff cfg s hb, ?_, ?_,
    fun s2 h => limiterStep_preserves_available cfg s s2 h hb⟩
  · exact limiterStep_preserves_available cfg s _ (LimiterStep.release s) hb
  · exact limiterStep_preserves_available cfg s _ (LimiterStep.acquire s) hb

/-- Witness for the amended C2 at a concrete input: a full pool of
Scenario A's limiter rejects a further `Release`. -/
theorem release_fails_iff_pool_full_witness :
    ((releaseOp cfgScenarioA
        { capacity := 5, available := 5, pending := 0, toStore := none }).1 = false ↔
      (5 : Nat) = chanCap cfgScenarioA) ∧
    (releaseOp cfgScenarioA
        { capacity := 5, available := 5, pending := 0, toStore := none }).2.available ≤
      chanCap cfgScenarioA := by
  have h := release_fails_iff_pool_full cfgScenarioA
    { capacity := 5, available := 5, pending := 0, toStore := none } (by decide)
  exact ⟨h.1, h.2.1⟩

/-! ## Upgrade pipeline (`internal/upgrader/upgrader.go`) -/

/-- The claims a decoded user token carries (`jwt.UserClaims`, as consumed by
`getUserInfo`). -/
structure UserClaims where
  userID : Int
  bizID : Int
deriving Repr, DecidableEq

/-- The query parameters of a parsed request target, in order of appearance;
`url.Values.Get` returns the first value of a key, or `""`. -/
abbrev QueryParams := List (String × String)

/-- `url.Values.Get`: first value bound to the key, `""` when absent. -/
def queryGet (ps : QueryParams) (k : String) : String :=
  match ps with
  | [] => ""
  | (k2, v) :: rest => if k2 = k then v else queryGet rest k

/-- The two external capabilities `getUserInfo` composes: `url.Parse`
(returning the target's query parameters, or failing) and the token
decoder `u.token.Decode` (returning claims, or an error). -/
structure AuthCapability where
  parseURI : String → Option QueryParams
  decode : String → Except String UserClaims

/-- The error taxonomy of `Upgrader.Upgrade`: `ErrInvalidURI`,
`ErrInvalidUserToken` (wrapping the decoder's error), and a session-store
failure propagated out of `OnBeforeUpgrade`. -/
inductive UpgradeErr where
  | invalidURI
  | invalidUserToken (underlying : String)
  | storeFailure (e : SessionErr)
deriving Repr, DecidableEq

/-- `Upgrader.getUserInfo`: parse the request target (failure is
`ErrInvalidURI`), take the `token` query parameter, decode it (failure is
wrapped in `ErrInvalidUserToken`); `AutoClose` is left `false`, to be set
from the header scan later. -/
def getUserInfo (cap : AuthCapability) (uri : String) : Except UpgradeErr UserInfo :=
  match cap.parseURI uri with
  | none => .error .invalidURI
  | some params =>
    match cap.decode (queryGet params "token") with
    | .error e => .error (.invalidUserToken e)
    | .ok uc => .ok { bizID := uc.bizID, userID := uc.userID, autoClose := false }

/-- ASCII case folding of one character, the fragment of `strings.EqualFold`
exercised by ASCII header names. -/
def asciiLower (c : Char) : Char :=
  if 65 ≤ c.toNat ∧ c.toNat ≤ 90 then Char.ofNat (c.toNat + 32) else c

/-- `strings.EqualFold` restricted to ASCII strings. -/
def eqFold (a b : String) : Bool :=
  a.toList.map asciiLower = b.toList.map asciiLower

/-- The `OnHeader` callback folded over the header lines in arrival order:
each line whose name case-insensitively equals `X-AutoClose` overwrites the
latched flag with `value == "true"`; all other lines leave it unchanged. -/
def scanAutoClose (headers : List (String × String)) : Bool :=
  headers.foldl
    (fun ac h => if eqFold h.1 "X-AutoClose" then h.2 == "true" else ac) false

/-- The observable side effects of one `Upgrade` call that do not flow
through its return value: the `Build` invocation and the `ErrExistedUser`
warning log. -/
inductive UpgradeEvent where
  | buildCalled (info : UserInfo)
  | warnExistedUser
deriving Repr, DecidableEq

/-- Everything one `Upgrade` call produces: the values handed back to the
caller (`session`, `err`), whether the connection was upgraded, the recorded
side effects, and the backend store afterwards. -/
structure UpgradeResult where
  session : Option RedisSession
  err : Option UpgradeErr
  upgraded : Bool
  events : List UpgradeEvent
  store : RedisStore
deriving Repr, DecidableEq

/-- `Upgrader.Upgrade` over an arbitrary session-store backend.  The
handshake driver (the external `ws.Upgrader`) is modelled from the spec's
strictly ordered state machine: `OnRequest` on the request target, then
`OnHeader` once per header line in arrival order, then `OnBeforeUpgrade`
immediately before the response; an error from a hook aborts the handshake
and is returned with the connection not upgraded.  The hook bodies are
translated from the source: `OnRequest` runs `getUserInfo`; `OnHeader`
latches the `X-AutoClose` flag; `OnBeforeUpgrade` attaches the flag to the
identity, calls `Build`, fails on a store error, and on `isNew = false`
merely logs the `ErrExistedUser` warning before returning success. -/
def upgradeWith (backend : Backend) (cap : AuthCapability) (st : RedisStore)
    (uri : String) (headers : List (String × String)) (loginTime : String) :
    UpgradeResult :=
  match getUserInfo cap uri with
  | .error e =>
    { session := none, err := some e, upgraded := false, events := [], store := st }
  | .ok info0 =>
    let info : UserInfo := { info0 with autoClose := scanAutoClose headers }
    let r := buildWith backend st info loginTime
    match r.1.2.2 with
    | some e =>
      { session := none, err := some (.storeFailure e), upgraded := false,
        events := [.buildCalled info], store := r.2 }
    | none =>
      { session := r.1.1, err := none, upgraded := true,
        events := .buildCalled info ::
          (if r.1.2.1 then [] else [.warnExistedUser]),
        store := r.2 }

/-- `Upgrader.Upgrade` against the healthy backend. -/
def upgrade (cap : AuthCapability) (st : RedisStore) (uri : String)
    (headers : List (String × String)) (loginTime : String) : UpgradeResult :=
  upgradeWith runScriptHealthy cap st uri headers loginTime

/-- What the caller of `Upgrade` can observe of its outcome: the returned
session and error values. -/
def callerView (r : UpgradeResult) : Option RedisSession × Option UpgradeErr :=
  (r.session, r.err)

/-- Claim C6: an unparsable request target aborts with `ErrInvalidURI`, a
token that fails to decode aborts with `ErrInvalidUserToken`; in both cases
the connection is not upgraded, no session is returned, the store is
untouched and — the event list being empty — `Build` is never invoked. -/
theorem upgrade_auth_failure_no_session (cap : AuthCapability) (st : RedisStore)
    (uri : String) (headers : List (String × String)) (lt : String) :
    (cap.parseURI uri = none →
      upgrade cap st uri headers lt =
        { session := none, err := some .invalidURI, upgraded := false,
          events := [], store := st }) ∧
    (∀ params e, cap.parseURI uri = some params →
      cap.decode (queryGet params "token") = .error e →
      upgrade cap st uri headers lt =
        { session := none, err := some (.invalidUserToken e), upgraded := false,
          events := [], store := st }) := by
  constructor
  · intro hp
    unfold upgrade upgradeWith getUserInfo
    rw [hp]
  · intro params e hp hd
    unfold upgrade upgradeWith getUserInfo
    simp only [hp, hd]

/-- A concrete instantiation of the two external capabilities, for the
closed-form theorems: the target `"/ws?token=tok7"` parses to a `token`
query parameter, the token `"tok7"` decodes to `{userID = 7, bizID = 1}`,
everything else fails. -/
def testCap : AuthCapability where
  parseURI u :=
    if u = "/ws?token=tok7" then some [("token", "tok7")]
    else if u = "/ws?token=bad" then some [("token", "bad")]
    else none
  decode t :=
    if t = "tok7" then .ok { userID := 7, bizID := 1 } else .error "invalid token"

/-- Witness for C6 at concrete inputs: an unparsable target and a target
whose token does not decode. -/
theorem upgrade_auth_failure_no_session_witness :
    (upgrade testCap [] "no-such-target" [] "t1" =
      { session := none, err := some .invalidURI, upgraded := false,
        events := [], store := [] }) ∧
    (upgrade testCap [] "/ws?token=bad" [] "t1" =
      { session := none, err := some (.invalidUserToken "invalid token"),
        upgraded := false, events := [], store := [] }) := by
  constructor
  · exact (upgrade_auth_failure_no_session testCap [] "no-such-target" [] "t1").1 rfl
  · exact (upgrade_auth_failure_no_session testCap [] "/ws?token=bad" [] "t1").2
      [("token", "bad")] "invalid token" rfl rfl

/-- The identity decoded from `"tok7"`, as it reaches `Build` when no
auto-close header is present. -/
def info7 : UserInfo := { bizID := 1, userID := 7, autoClose := false }

/-- A store in which `info7`'s session already exists. -/
def stDup : RedisStore := storeInsert [] (sessionKey info7) [("loginTime", "t0")]

/-- Counterexample to claim C3 as stated: on the duplicate-session path the
handshake does complete, but the duplicate condition is not surfaced to the
caller — the values `Upgrade` returns (session and error) are exactly the
ones of a fresh-session run on the same request, so the caller cannot
distinguish the two outcomes; the condition lives only in a warning log. -/
theorem upgrade_duplicate_invisible_to_caller :
    (upgrade testCap stDup "/ws?token=tok7" [] "t1").upgraded = true ∧
    (upgrade testCap stDup "/ws?token=tok7" [] "t1").err = none ∧
    callerView (upgrade testCap stDup "/ws?token=tok7" [] "t1") =
      callerView (upgrade testCap [] "/ws?token=tok7" [] "t1") := by
  refine ⟨rfl, rfl, rfl⟩

/-- Claim C3 (amended): when `Build` reports an existing session during
`OnBeforeUpgrade`, `Upgrade` still completes the handshake successfully and
returns the session with a `nil` error — the duplicate is never conflated
with a hard failure — and the condition is recorded distinguishably as the
`ErrExistedUser` warning log; it is not part of the value returned to the
caller, which is identical to the new-session outcome. -/
theorem upgrade_duplicate_nonfatal_logged (cap : AuthCapability) (st : RedisStore)
    (uri : String) (headers : List (String × String)) (lt : String)
    (info0 : UserInfo) (r : RedisHash)
    (hok : getUserInfo cap uri = .ok info0)
    (hdup : storeLookup st
      (sessionKey { info0 with autoClose := scanAutoClose headers }) = some r) :
    upgrade cap st uri headers lt =
      { session := some (newRedisSession
          { info0 with autoClose := scanAutoClose headers }),
        err := none, upgraded := true,
        events := [.buildCalled { info0 with autoClose := scanAutoClose headers },
          .warnExistedUser],
        store := st } := by
  unfold upgrade upgradeWith
  rw [hok]
  have hb := build_present st { info0 with autoClose := scanAutoClose headers } lt r hdup
  unfold build at hb
  simp [hb]

/-- Witness for the amended C3 at a concrete input: the duplicate run over
`stDup`. -/
theorem upgrade_duplicate_nonfatal_logged_witness :
    upgrade testCap stDup "/ws?token=tok7" [] "t1" =
      { session := some (newRedisSession info7), err := none, upgraded := true,
        events := [.buildCalled info7, .warnExistedUser], store := stDup } := by
  exact upgrade_duplicate_nonfatal_logged testCap stDup "/ws?token=tok7" [] "t1"
    info7 [("loginTime", "t0")] rfl rfl

/-- A header list carrying two `X-AutoClose` lines with conflicting
values. -/
def dupHeaders : List (String × String) :=
  [("X-AutoClose", "true"), ("x-autoclose", "false")]

/-- Counterexample to claim C7 as stated: this request carries a header
whose name case-insensitively equals `X-AutoClose` and whose value is
`"true"`, yet the successful upgrade binds a session with
`AutoClose = false` — a later duplicate header overwrote the latched flag,
so "true exactly when such a header is present" fails. -/
theorem upgrade_autoClose_duplicate_header_overwrites :
    (dupHeaders.any fun h => eqFold h.1 "X-AutoClose" && h.2 == "true") = true ∧
    (upgrade testCap [] "/ws?token=tok7" dupHeaders "t1").upgraded = true ∧
    ((upgrade testCap [] "/ws?token=tok7" dupHeaders "t1").session.map
      fun s => s.userInfo.autoClose) = some false := by
  refine ⟨by decide, rfl, rfl⟩

/-- The value of the last header line whose name case-insensitively equals
`X-AutoClose`, if any. -/
def lastAutoCloseHeader (headers : List (String × String)) : Option String :=
  match headers with
  | [] => none
  | h :: rest =>
    match lastAutoCloseHeader rest with
    | some v => some v
    | none => if eqFold h.1 "X-AutoClose" then some h.2 else none

/-- The auto-close flag as the amended claim states it: determined by the
last `X-AutoClose` header line; `false` when there is none. -/
def autoCloseSpec (headers : List (String × String)) : Bool :=
  match lastAutoCloseHeader headers with
  | some v => v == "true"
  | none => false

theorem scanAutoClose_foldl (headers : List (String × String)) (ac : Bool) :
    headers.foldl
        (fun ac h => if eqFold h.1 "X-AutoClose" then h.2 == "true" else ac) ac =
      match lastAutoCloseHeader headers with
      | some v => v == "true"
      | none => ac := by
  induction headers generalizing ac with
  | nil => rfl
  | cons h rest ih =>
    simp only [List.foldl_cons, lastAutoCloseHeader]
    rw [ih]
    rcases lastAutoCloseHeader rest with _ | v
    · simp only
      rcases heq : eqFold h.1 "X-AutoClose" with _ | _
      · simp [heq]
      · simp [heq]
    · rfl

theorem scanAutoClose_eq_spec (headers : List (String × String)) :
    scanAutoClose headers = autoCloseSpec headers := by
  unfold scanAutoClose autoCloseSpec
  rw [scanAutoClose_foldl]

theorem lastAutoCloseHeader_none (headers : List (String × String))
    (h : ∀ x ∈ headers, eqFold x.1 "X-AutoClose" = false) :
    lastAutoCloseHeader headers = none := by
  induction headers with
  | nil => rfl
  | cons x rest ih =>
    unfold lastAutoCloseHeader
    rw [ih fun y hy => h y (List.mem_cons_of_mem x hy)]
    rw [h x (List.mem_cons_self x rest)]
    simp

/-- Claim C7 (amended): for every successful upgrade the bound session's
`AutoClose` flag equals the value latched by the header scan, which is
`true` exactly when the last header line named `X-AutoClose`
(case-insensitively) carries the value `"true"`; with no such header the
flag is `false`, and header lines with any other name never affect it. -/
theorem upgrade_autoClose_from_last_header (cap : AuthCapability)
    (st : RedisStore) (uri : String) (headers : List (String × String))
    (lt : String) (info0 : UserInfo)
    (hok : getUserInfo cap uri = .ok info0) :
    (∀ s, (upgrade cap st uri headers lt).session = some s →
      s.userInfo.autoClose = autoCloseSpec headers) ∧
    ((∀ x ∈ headers, eqFold x.1 "X-AutoClose" = false) →
      autoCloseSpec headers = false) := by
  constructor
  · intro s hs
    have hb := build_healthy_never_fails st
      { info0 with autoClose := scanAutoClose headers } lt
    have hup : (upgrade cap st uri headers lt).session =
        some (newRedisSession { info0 with autoClose := scanAutoClose headers }) := by
      unfold upgrade upgradeWith
      rw [hok]
      simp only
      unfold build at hb
      rcases hsplit : (buildWith runScriptHealthy st
          { info0 with autoClose := scanAutoClose headers } lt).1.2.2 with _ | e
      · simp only [hsplit]
        rw [← hb.1]
      · rw [hsplit] at hb
        exact absurd hb.2 (by simp)
    rw [hup] at hs
    cases hs
    show scanAutoClose headers = autoCloseSpec headers
    exact scanAutoClose_eq_spec headers
  · intro hnone
    unfold autoCloseSpec
    rw [lastAutoCloseHeader_none headers hnone]

/-- Witness for the amended C7 at a concrete input: an upper-cased
`X-AUTOCLOSE: true` header yields a session with `AutoClose = true`, and a
request whose only headers are unrecognized latches `false`. -/
theorem upgrade_autoClose_from_last_header_witness :
    ((upgrade testCap [] "/ws?token=tok7" [("X-AUTOCLOSE", "true")] "t1").session =
        some (newRedisSession { bizID := 1, userID := 7, autoClose := true }) →
      (newRedisSession { bizID := 1, userID := 7, autoClose := true }).userInfo.autoClose =
        autoCloseSpec [("X-AUTOCLOSE", "true")]) ∧
    autoCloseSpec [("Accept", "text/html")] = false := by
  constructor
  · exact (upgrade_autoClose_from_last_header testCap [] "/ws?token=tok7"
      [("X-AUTOCLOSE", "true")] "t1" info7 rfl).1 _
  · exact (upgrade_autoClose_from_last_header testCap [] "/ws?token=tok7"
      [("Accept", "text/html")] "t1" info7 rfl).2 (by decide)

/-! ## Frame codec (the `wswrapper` Reader and Writer) -/

/-- One protocol frame as the codec observes it: whether it is a control
frame, the per-message compression indicator the `wsflate.MessageState`
extension derives from the first frame's reserved bit, and the payload
bytes.  The byte-level framing itself lives in the external `gobwas`
library; the codec's own logic operates at this granularity. -/
structure Frame where
  isControl : Bool
  compressed : Bool
  payload : List UInt8
deriving Repr, DecidableEq

/-- The Writer's two write paths on a Writer constructed with a fixed
compression flag: `writeCompressed` pushes the payload through the
compressor, closes the compressor stream and flushes one compressed data
frame; `writeUncompressed` writes and flushes the payload as one
uncompressed data frame.  Each call flushes, so one call emits exactly one
message on the wire. -/
def writerWrite (compress : List UInt8 → List UInt8) (compressed : Bool)
    (p : List UInt8) : List Frame :=
  if compressed then
    [{ isControl := false, compressed := true, payload := compress p }]
  else
    [{ isControl := false, compressed := false, payload := p }]

/-- `Reader.Read`: skip over control frames (dispatching them to the control
handler), then return the first data message — decompressed when its
compression indicator is set, verbatim otherwise.  `none` models a stream
that ends before a data frame arrives. -/
def readerRead (decompress : List UInt8 → List UInt8) :
    List Frame → Option (List UInt8)
  | [] => none
  | f :: rest =>
    if f.isControl then readerRead decompress rest
    else if f.compressed then some (decompress f.payload)
    else some f.payload

/-- Claim C8: for any compressor/decompressor pair that invert each other
(the contract of the external `compress/flate` codec), writing a payload
through a compression-enabled Writer and reading the produced frames back
through a compression-enabled Reader returns exactly the payload, and the
same round trip holds with compression disabled on both sides. -/
theorem codec_round_trip (compress decompress : List UInt8 → List UInt8)
    (hinv : ∀ p, decompress (compress p) = p) (p : List UInt8) :
    readerRead decompress (writerWrite compress true p) = some p ∧
    readerRead decompress (writerWrite compress false p) = some p := by
  constructor
  · simp [writerWrite, readerRead, hinv p]
  · simp [writerWrite, readerRead]

/-- Witness for C8 at a concrete input: the identity codec pair on the
payload `[1, 2, 3]`. -/
theorem codec_round_trip_witness :
    (∀ q : List UInt8, id (id q) = q) ∧
    readerRead id (writerWrite id true [1, 2, 3]) = some [1, 2, 3] ∧
    readerRead id (writerWrite id false [1, 2, 3]) = some [1, 2, 3] := by
  refine ⟨fun q => rfl, ?_, ?_⟩
  · exact (codec_round_trip id id (fun q => rfl) [1, 2, 3]).1
  · exact (codec_round_trip id id (fun q => rfl) [1, 2, 3]).2

end WsGateway
